import Mathlib

/-!
Verification of the daily-picks portfolio dashboard.

This file shallowly embeds the state-reconciliation logic of the
repository: the market-price merge of `handleRefreshMarketData`
(src/unnamed/part_000), the portfolio summary reducer of `Dashboard`
(src/components/Dashboard.tsx), the receipt-upload handler of
`AddAssetModal` (src/components/AddAssetModal.tsx), and the chat
send/stream consumer and `fetchStockNews` parser of `SidebarChat`
(src/components/SidebarChat.tsx).

JavaScript numbers are modelled as rationals (the code performs only
exact arithmetic on finite values in the fragments verified here),
strings as Lean strings with hand-rolled, kernel-reducible versions of
the JS primitives `trim`, `split` and `toUpperCase` that the code uses.
-/

/-! ## String primitives modelling the JS operations used by the code -/

/-- Models JS `toUpperCase` (the code only compares ASCII tickers). -/
def upper (s : String) : String := String.mk (s.data.map Char.toUpper)

/-- Drop whitespace from both ends of a character list. -/
def trimChars (l : List Char) : List Char :=
  ((l.dropWhile Char.isWhitespace).reverse.dropWhile Char.isWhitespace).reverse

/-- Models JS `String.prototype.trim`. -/
def jsTrim (s : String) : String := String.mk (trimChars s.data)

/-- Fuel-driven splitter: splits `s` at every occurrence of the non-empty
separator `sep`, mirroring JS `String.prototype.split`. -/
def splitGo (sep : List Char) : Nat → List Char → List Char → List (List Char)
  | 0, s, acc => [acc.reverse ++ s]
  | _ + 1, [], acc => [acc.reverse]
  | fuel + 1, c :: rest, acc =>
    if sep.isPrefixOf (c :: rest) then
      acc.reverse :: splitGo sep fuel ((c :: rest).drop sep.length) []
    else
      splitGo sep fuel rest (c :: acc)

/-- Models JS `s.split(sep)` for a non-empty separator. -/
def jsSplit (s sep : String) : List String :=
  (splitGo sep.data (s.data.length + 1) s.data []).map String.mk

/-! ## Data model

`types.ts` is not under src/; the record shape below is reconstructed
from its uses in src/unnamed/part_000 (the mock asset literal),
Dashboard.tsx and AddAssetModal.tsx.  No claim depends on more than the
fields listed there. -/

/-- Attribution tag of an asset.  Only the GEMINI label is observed in
the sources; other allowed labels are collapsed into OTHER. -/
inductive AISource
  | GEMINI
  | OTHER
deriving DecidableEq

/-- One holding lot, as used by App, Dashboard and AddAssetModal. -/
structure StockAsset where
  id : String
  ticker : String
  companyName : String
  quantity : ℚ
  avgPrice : ℚ
  currentPrice : ℚ
  source : AISource
  iconUrl : Option String := none
  lastUpdated : ℕ
deriving DecidableEq

/-! ## Market refresh merge (src/unnamed/part_000, lines 60-77) -/

/-- The price looked up for a ticker:
`Object.entries(marketData.prices).find(([t, p]) => t.toUpperCase() ===
asset.ticker.toUpperCase())?.[1]`.  The mapping is the entry list of the
JSON object, in insertion order. -/
def lookupPrice (prices : List (String × ℚ)) (ticker : String) : Option ℚ :=
  (prices.find? (fun e => upper e.1 == upper ticker)).map Prod.snd

/-- The per-record body of the merge map.  `if (newPrice)` is the JS
truthiness guard: a looked-up price of 0 (or an absent key) leaves the
record untouched.  (JS also treats NaN as falsy; NaN does not exist in
the rational model.)  The `typeof newPrice === 'number'` ternary always
takes its first branch here since the mapping is number-valued. -/
def mergeAsset (prices : List (String × ℚ)) (now : ℕ) (asset : StockAsset) :
    StockAsset :=
  match lookupPrice prices asset.ticker with
  | some newPrice =>
    if newPrice ≠ 0 then
      { asset with currentPrice := newPrice, lastUpdated := now }
    else asset
  | none => asset

/-- The merge step of `handleRefreshMarketData`: a pure map over the
previous collection (`prevAssets.map(asset => ...)`), run when a price
mapping is present. -/
def refreshMergeStep (prices : List (String × ℚ)) (now : ℕ)
    (assets : List StockAsset) : List StockAsset :=
  assets.map (mergeAsset prices now)

/-- The observable tuple the idempotence property speaks about. -/
def assetTuple (a : StockAsset) : String × ℚ × ℚ × ℚ :=
  (a.ticker, a.quantity, a.avgPrice, a.currentPrice)

theorem mergeAsset_ticker (prices : List (String × ℚ)) (now : ℕ)
    (a : StockAsset) : (mergeAsset prices now a).ticker = a.ticker := by
  unfold mergeAsset
  rcases lookupPrice prices a.ticker with _ | p
  · rfl
  · dsimp only
    split <;> rfl

theorem mergeAsset_idem (prices : List (String × ℚ)) (now1 now2 : ℕ)
    (a : StockAsset) :
    assetTuple (mergeAsset prices now2 (mergeAsset prices now1 a)) =
      assetTuple (mergeAsset prices now1 a) := by
  rcases h : lookupPrice prices a.ticker with _ | p
  · have h1 : mergeAsset prices now1 a = a := by unfold mergeAsset; rw [h]
    have h2 : mergeAsset prices now2 a = a := by unfold mergeAsset; rw [h]
    rw [h1, h2]
  · by_cases hp : p = 0
    · subst hp
      have h1 : mergeAsset prices now1 a = a := by
        unfold mergeAsset; rw [h]; simp
      have h2 : mergeAsset prices now2 a = a := by
        unfold mergeAsset; rw [h]; simp
      rw [h1, h2]
    · have h1 : mergeAsset prices now1 a =
          { a with currentPrice := p, lastUpdated := now1 } := by
        unfold mergeAsset; rw [h]; simp [hp]
      have hlook : lookupPrice prices
          ({ a with currentPrice := p, lastUpdated := now1 } :
            StockAsset).ticker = some p := h
      have h2 : mergeAsset prices now2
          { a with currentPrice := p, lastUpdated := now1 } =
          { a with currentPrice := p, lastUpdated := now2 } := by
        unfold mergeAsset; rw [hlook]; simp [hp]
      rw [h1, h2]
      rfl

/-- C2.  Idempotence of the refresh merge: merging the same price
mapping twice yields, per record, the same (ticker, quantity, avgPrice,
currentPrice) tuple as merging it once; only the lastUpdated timestamp
(the `now` argument) may differ. -/
theorem c2_idempotent (prices : List (String × ℚ)) (now1 now2 : ℕ)
    (assets : List StockAsset) :
    (refreshMergeStep prices now2 (refreshMergeStep prices now1 assets)).map
        assetTuple =
      (refreshMergeStep prices now1 assets).map assetTuple := by
  unfold refreshMergeStep
  induction assets with
  | nil => rfl
  | cons a l ih =>
    simp only [List.map_cons] at *
    rw [ih, mergeAsset_idem]

/-- C1 (amended).  Merge postcondition of a market refresh: in the merged
collection, a record whose ticker matches no mapping key (case-insensitive)
is returned unchanged in all fields; a record whose looked-up price is
nonzero gets exactly that price as currentPrice and the refresh time as
lastUpdated, all other fields unchanged; and the looked-up price is a
function of the upper-cased ticker alone, so every record sharing a ticker
(up to case) receives the same new price.  (The original claim, which also
replaced the price when the matching key maps to 0, fails: the truthiness
guard skips zero prices — see the counterexample and C10.) -/
theorem c1_amended (prices : List (String × ℚ)) (now : ℕ)
    (assets : List StockAsset) (i : ℕ) (a : StockAsset)
    (ha : assets.get? i = some a) :
    (lookupPrice prices a.ticker = none →
      (refreshMergeStep prices now assets).get? i = some a)
  ∧ (∀ p : ℚ, lookupPrice prices a.ticker = some p → p ≠ 0 →
      (refreshMergeStep prices now assets).get? i =
        some { a with currentPrice := p, lastUpdated := now })
  ∧ (∀ b : StockAsset, upper b.ticker = upper a.ticker →
      lookupPrice prices b.ticker = lookupPrice prices a.ticker) := by
  have hnoneCase : lookupPrice prices a.ticker = none →
      mergeAsset prices now a = a := by
    intro hnone; unfold mergeAsset; rw [hnone]
  refine ⟨?_, ?_, ?_⟩
  · intro hnone
    rw [refreshMergeStep, List.get?_map, ha, Option.map_some',
      hnoneCase hnone]
  · intro p hp hpz
    have hstep : mergeAsset prices now a =
        { a with currentPrice := p, lastUpdated := now } := by
      unfold mergeAsset; rw [hp]; simp [hpz]
    rw [refreshMergeStep, List.get?_map, ha, Option.map_some', hstep]
  · intro b hb
    unfold lookupPrice
    rw [hb]

/-- C1 counterexample: for the asset collection `[cexAssetC1]` (ticker
"AAA", currentPrice 7, lastUpdated 0) and the present price mapping
`[("AAA", 0)]`, the claim as stated predicts currentPrice 0 and a
refreshed timestamp, but the merge leaves the record completely
unchanged. -/
def cexAssetC1 : StockAsset :=
  { id := "a1", ticker := "AAA", companyName := "Alpha", quantity := 1,
    avgPrice := 5, currentPrice := 7, source := AISource.GEMINI,
    lastUpdated := 0 }

theorem c1_counterexample :
    (refreshMergeStep [("AAA", (0 : ℚ))] 1 [cexAssetC1]).map
        (fun x => (x.currentPrice, x.lastUpdated)) ≠ [((0 : ℚ), 1)]
  ∧ refreshMergeStep [("AAA", (0 : ℚ))] 1 [cexAssetC1] = [cexAssetC1] := by
  constructor
  · decide
  · decide

/-- Demo data for the C1 witness: the spec's selective-merge example with
a lower-cased snapshot key exercising case-insensitivity. -/
def demoA : StockAsset :=
  { id := "a", ticker := "AAA", companyName := "Alpha", quantity := 1,
    avgPrice := 8, currentPrice := 10, source := AISource.GEMINI,
    lastUpdated := 0 }

def demoB : StockAsset :=
  { id := "b", ticker := "BBB", companyName := "Beta", quantity := 1,
    avgPrice := 12, currentPrice := 20, source := AISource.GEMINI,
    lastUpdated := 0 }

theorem c1_witness :
    (refreshMergeStep [("aaa", (15 : ℚ))] 5 [demoA, demoB]).get? 0 =
        some { demoA with currentPrice := 15, lastUpdated := 5 }
  ∧ (refreshMergeStep [("aaa", (15 : ℚ))] 5 [demoA, demoB]).get? 1 =
        some demoB := by
  constructor
  · exact (c1_amended [("aaa", (15 : ℚ))] 5 [demoA, demoB] 0 demoA rfl).2.1 15
      (by decide) (by decide)
  · exact (c1_amended [("aaa", (15 : ℚ))] 5 [demoA, demoB] 1 demoB rfl).1
      (by decide)

/-- C10.  Zero-price edge case: if the looked-up price for a record's
ticker is 0, the merge leaves that record (and its position in the
collection) entirely unchanged — currentPrice and lastUpdated keep their
previous values — because the truthiness guard treats a zero price like
an absent key. -/
theorem c10_zero_price (prices : List (String × ℚ)) (now : ℕ)
    (a : StockAsset) (h : lookupPrice prices a.ticker = some 0) :
    mergeAsset prices now a = a
  ∧ ∀ (assets : List StockAsset) (i : ℕ), assets.get? i = some a →
      (refreshMergeStep prices now assets).get? i = some a := by
  have h1 : mergeAsset prices now a = a := by
    unfold mergeAsset; rw [h]; simp
  refine ⟨h1, ?_⟩
  intro assets i ha
  rw [refreshMergeStep, List.get?_map, ha]
  simp [h1]

/-- Demo record for the C10 witness, shaped like the repository's mock
ITUB holding. -/
def demoItub : StockAsset :=
  { id := "initial-itub", ticker := "ITUB",
    companyName := "Itau Unibanco Holding", quantity := 1, avgPrice := 7,
    currentPrice := 7, source := AISource.GEMINI, lastUpdated := 3 }

theorem c10_witness :
    mergeAsset [("ITUB", (0 : ℚ))] 99 demoItub = demoItub
  ∧ (refreshMergeStep [("ITUB", (0 : ℚ))] 99 [demoItub]).get? 0 =
      some demoItub := by
  have h := c10_zero_price [("ITUB", (0 : ℚ))] 99 demoItub (by decide)
  exact ⟨h.1, h.2 [demoItub] 0 rfl⟩

/-! ## Portfolio summary (src/components/Dashboard.tsx, lines 28-39) -/

/-- Derived portfolio metrics, recomputed on every render. -/
structure PortfolioSummary where
  totalValue : ℚ
  totalCost : ℚ
  totalGain : ℚ
  gainPercentage : ℚ
deriving DecidableEq

/-- One step of the `assets.reduce` accumulator in Dashboard. -/
def summaryStep (acc : PortfolioSummary) (asset : StockAsset) :
    PortfolioSummary :=
  let currentVal := asset.quantity * asset.currentPrice
  let costBasis := asset.quantity * asset.avgPrice
  { totalValue := acc.totalValue + currentVal
    totalCost := acc.totalCost + costBasis
    totalGain := acc.totalGain + (currentVal - costBasis)
    gainPercentage := 0 }

/-- The summary projection: the reduce over the asset list starting from
all-zero, followed by the guarded gainPercentage assignment of line 39. -/
def summary (assets : List StockAsset) : PortfolioSummary :=
  let s := assets.foldl summaryStep ⟨0, 0, 0, 0⟩
  { s with gainPercentage :=
      if s.totalCost > 0 then s.totalGain / s.totalCost * 100 else 0 }

/-- Total current value as the spec writes it. -/
def sumV (assets : List StockAsset) : ℚ :=
  (assets.map (fun a => a.quantity * a.currentPrice)).sum

/-- Total cost basis as the spec writes it. -/
def sumC (assets : List StockAsset) : ℚ :=
  (assets.map (fun a => a.quantity * a.avgPrice)).sum

theorem summary_foldl (assets : List StockAsset) : ∀ x y z : ℚ,
    assets.foldl summaryStep ⟨x, y, z, 0⟩ =
      ⟨x + sumV assets, y + sumC assets,
       z + (sumV assets - sumC assets), 0⟩ := by
  induction assets with
  | nil => intro x y z; simp [sumV, sumC]
  | cons a l ih =>
    intro x y z
    have hstep : summaryStep ⟨x, y, z, 0⟩ a =
        ⟨x + a.quantity * a.currentPrice, y + a.quantity * a.avgPrice,
         z + (a.quantity * a.currentPrice - a.quantity * a.avgPrice), 0⟩ :=
      rfl
    rw [List.foldl_cons, hstep, ih]
    simp only [sumV, sumC, List.map_cons, List.sum_cons,
      PortfolioSummary.mk.injEq, and_true]
    refine ⟨by ring, by ring, by ring⟩

/-- C3.  Portfolio summary projection: for every asset list with
non-negative quantities and prices, the Dashboard reducer computes
totalValue as the sum of quantity times currentPrice, totalCost as the
sum of quantity times avgPrice, totalGain as their difference, and
gainPercentage as gain over cost times 100 when the cost is nonzero and
0 when it is zero (no division fault: the zero case is guarded). -/
theorem c3_summary (assets : List StockAsset)
    (h : ∀ a ∈ assets, 0 ≤ a.quantity ∧ 0 ≤ a.avgPrice ∧ 0 ≤ a.currentPrice) :
    (summary assets).totalValue = sumV assets
  ∧ (summary assets).totalCost = sumC assets
  ∧ (summary assets).totalGain =
      (summary assets).totalValue - (summary assets).totalCost
  ∧ (summary assets).gainPercentage =
      if sumC assets = 0 then 0
      else (sumV assets - sumC assets) / sumC assets * 100 := by
  have hC : 0 ≤ sumC assets := by
    apply List.sum_nonneg
    intro x hx
    rcases List.mem_map.1 hx with ⟨a, ha, rfl⟩
    exact mul_nonneg (h a ha).1 (h a ha).2.1
  have hfold := summary_foldl assets 0 0 0
  have hs : summary assets =
      { totalValue := sumV assets, totalCost := sumC assets,
        totalGain := sumV assets - sumC assets,
        gainPercentage := if sumC assets > 0 then
          (sumV assets - sumC assets) / sumC assets * 100 else 0 } := by
    simp only [summary]
    rw [hfold]
    simp only [zero_add]
  rw [hs]
  refine ⟨rfl, rfl, rfl, ?_⟩
  rcases eq_or_lt_of_le hC with hz | hpos
  · rw [← hz]
    simp
  · rw [if_pos hpos, if_neg (ne_of_gt hpos)]

/-- The spec's concrete summary example: quantity 2, average price 10,
current price 15. -/
def demoAssetC3 : StockAsset :=
  { id := "x", ticker := "XYZ", companyName := "Xyz", quantity := 2,
    avgPrice := 10, currentPrice := 15, source := AISource.GEMINI,
    lastUpdated := 0 }

theorem c3_witness :
    (summary [demoAssetC3]).totalValue = 30
  ∧ (summary [demoAssetC3]).totalCost = 20
  ∧ (summary [demoAssetC3]).totalGain = 10
  ∧ (summary [demoAssetC3]).gainPercentage = 50 := by
  have h := c3_summary [demoAssetC3] (by
    intro a ha
    rw [List.mem_singleton] at ha
    subst ha
    refine ⟨by norm_num [demoAssetC3], by norm_num [demoAssetC3],
      by norm_num [demoAssetC3]⟩)
  obtain ⟨h1, h2, h3, h4⟩ := h
  have hv : sumV [demoAssetC3] = 30 := by norm_num [sumV, demoAssetC3]
  have hc : sumC [demoAssetC3] = 20 := by norm_num [sumC, demoAssetC3]
  refine ⟨by rw [h1, hv], by rw [h2, hc], ?_, ?_⟩
  · rw [h3, h1, h2, hv, hc]; norm_num
  · rw [h4, hv, hc]; norm_num

/-! ## Receipt upload (src/components/AddAssetModal.tsx, lines 24-57)

The handler registers an async `onloadend` callback on a FileReader and
returns.  Everything after the base64 conversion — including the
`await parseTradeScreenshot(...)` and the `setIsProcessing(false)` on
line 49 — runs inside that callback, *outside* the surrounding
try/catch (which only wraps the synchronous registration and
`readAsDataURL`, neither of which throws).  `parseTradeScreenshot`
rethrows its errors (geminiService line 209), so a rejected extraction,
like a failed read (null `reader.result`, making `split` throw a
TypeError), aborts the callback after the point where `isProcessing`
was set to true and before any reset. -/

/-- Which tab of the modal is showing. -/
inductive Tab
  | manual
  | image
deriving DecidableEq

/-- The four independently optional fields of a receipt-extraction
response (geminiService `parseTradeScreenshot` schema). -/
structure ParsedReceipt where
  ticker : Option String := none
  companyName : Option String := none
  quantity : Option ℚ := none
  avgPrice : Option ℚ := none
deriving DecidableEq

/-- The component state of AddAssetModal that handleFileChange touches. -/
structure FormState where
  activeTab : Tab
  isProcessing : Bool
  loadingStatus : String
  ticker : String
  qty : String
  price : String
  source : AISource
deriving DecidableEq

/-- Initial modal state (the useState initializers, lines 12-20). -/
def initialFormState : FormState :=
  { activeTab := Tab.manual, isProcessing := false, loadingStatus := "",
    ticker := "", qty := "", price := "", source := AISource.GEMINI }

def statusAnalyzing : String := "Gemini Visionがレシートを解析中..."

def statusExtracted : String := "データを抽出しました！内容を確認してください。"

/-- The field-patching block of handleFileChange (lines 43-45).  Each
`if (data.field)` is a JS truthiness test: an absent field, an empty
ticker string, or a zero number leaves the typed value alone.  Numbers
are written into the text inputs via `toString`. -/
def applyReceipt (s : FormState) (d : ParsedReceipt) : FormState :=
  let s1 := match d.ticker with
    | some t => if t ≠ "" then { s with ticker := t } else s
    | none => s
  let s2 := match d.quantity with
    | some q => if q ≠ 0 then { s1 with qty := toString q } else s1
    | none => s1
  match d.avgPrice with
  | some p => if p ≠ 0 then { s2 with price := toString p } else s2
  | none => s2

/-- How a file-selection event resolves. -/
inductive ReceiptOutcome
  | readOrParseFailed
  | parsedNull
  | parsed (d : ParsedReceipt)

/-- handleFileChange as a transition on the modal state.  `fileSelected`
is false when `e.target.files` is empty (early return).  In the
`readOrParseFailed` case the async callback aborts: line 49 never runs
and the outer catch cannot fire, so no further state update happens. -/
def handleFileChange (s : FormState) (fileSelected : Bool)
    (outcome : ReceiptOutcome) : FormState :=
  if !fileSelected then s
  else
    let s1 := { s with isProcessing := true, loadingStatus := statusAnalyzing }
    match outcome with
    | ReceiptOutcome.readOrParseFailed => s1
    | ReceiptOutcome.parsedNull => { s1 with isProcessing := false }
    | ReceiptOutcome.parsed d =>
      let s2 := applyReceipt s1 d
      { s2 with activeTab := Tab.manual, isProcessing := false, loadingStatus := statusExtracted }

/-- C4 (code bug).  The claim says every execution of handleFileChange
leaves the processing state; but when the file read or the
parseTradeScreenshot call fails, the rejection happens inside the async
onloadend callback, outside the handler's try/catch, so isProcessing
stays true and the modal shows the processing indicator indefinitely.
This theorem evaluates the embedded handler at that failing execution. -/
theorem c4_stuck_processing :
    (handleFileChange initialFormState true
        ReceiptOutcome.readOrParseFailed).isProcessing = true
  ∧ (handleFileChange initialFormState true
        ReceiptOutcome.readOrParseFailed).loadingStatus = statusAnalyzing := by
  exact ⟨rfl, rfl⟩

/-- C7 (amended).  Partial-field patch frame condition: absent fields
never change the typed values, the AI source select is never touched,
and a present field is patched exactly when its value is truthy (a
nonempty ticker string, a nonzero quantity or price); a present but
zero number, like an absent field, leaves the typed value unchanged
(see the counterexample).  The modal has no companyName field, so that
response field patches nothing. -/
theorem c7_amended (s : FormState) (d : ParsedReceipt) :
    (d.ticker = none →
      (handleFileChange s true (ReceiptOutcome.parsed d)).ticker = s.ticker)
  ∧ (d.quantity = none →
      (handleFileChange s true (ReceiptOutcome.parsed d)).qty = s.qty)
  ∧ (d.avgPrice = none →
      (handleFileChange s true (ReceiptOutcome.parsed d)).price = s.price)
  ∧ (∀ t, d.ticker = some t → t ≠ "" →
      (handleFileChange s true (ReceiptOutcome.parsed d)).ticker = t)
  ∧ (∀ q, d.quantity = some q → q ≠ 0 →
      (handleFileChange s true (ReceiptOutcome.parsed d)).qty = toString q)
  ∧ (∀ p, d.avgPrice = some p → p ≠ 0 →
      (handleFileChange s true (ReceiptOutcome.parsed d)).price = toString p)
  ∧ (handleFileChange s true (ReceiptOutcome.parsed d)).source = s.source
  ∧ (d.ticker = some "" →
      (handleFileChange s true (ReceiptOutcome.parsed d)).ticker = s.ticker)
  ∧ (d.quantity = some 0 →
      (handleFileChange s true (ReceiptOutcome.parsed d)).qty = s.qty)
  ∧ (d.avgPrice = some 0 →
      (handleFileChange s true (ReceiptOutcome.parsed d)).price = s.price) := by
  rcases d with ⟨dt, dc, dq, dp⟩
  simp only [handleFileChange, applyReceipt, Bool.not_true, Bool.false_eq_true,
    if_false]
  refine ⟨?_, ?_, ?_, ?_, ?_, ?_, ?_, ?_, ?_, ?_⟩
  · rintro rfl
    rcases dq with _ | q <;> rcases dp with _ | p <;>
      simp <;> split <;> try split
    all_goals rfl
  · rintro rfl
    rcases dt with _ | t <;> rcases dp with _ | p <;>
      simp <;> split <;> try split
    all_goals rfl
  · rintro rfl
    rcases dt with _ | t <;> rcases dq with _ | q <;>
      simp <;> split <;> try split
    all_goals rfl
  · rintro t rfl ht
    rcases dq with _ | q <;> rcases dp with _ | p <;>
      simp [ht] <;> split <;> try split
    all_goals rfl
  · rintro q rfl hq
    rcases dp with _ | p <;> simp [hq] <;> try split
    all_goals rfl
  · rintro p rfl hp
    simp [hp]
  · rcases dt with _ | t <;> rcases dq with _ | q <;> rcases dp with _ | p <;>
      simp <;> (try split) <;> (try split) <;> (try split)
    all_goals rfl
  · rintro rfl
    rcases dq with _ | q <;> rcases dp with _ | p <;>
      simp <;> (try split) <;> (try split)
    all_goals rfl
  · rintro rfl
    rcases dt with _ | t <;> rcases dp with _ | p <;>
      simp <;> (try split) <;> (try split)
    all_goals rfl
  · rintro rfl
    rcases dt with _ | t <;> rcases dq with _ | q <;>
      simp <;> (try split) <;> (try split)
    all_goals rfl

/-- C7 counterexample: the receipt response is `quantity: 0` — the field
is present — yet with "5" already typed the handler patches nothing at
all: the quantity stays "5" rather than being patched, because 0 is
falsy.  So "patches exactly the present fields" fails as stated. -/
def cexFormC7 : FormState :=
  { activeTab := Tab.image, isProcessing := false, loadingStatus := "",
    ticker := "NVDA", qty := "5", price := "12", source := AISource.GEMINI }

def cexReceiptC7 : ParsedReceipt := { quantity := some 0 }

theorem c7_counterexample :
    cexReceiptC7.quantity = some 0
  ∧ (handleFileChange cexFormC7 true (ReceiptOutcome.parsed cexReceiptC7)).qty
      = "5"
  ∧ (handleFileChange cexFormC7 true
      (ReceiptOutcome.parsed cexReceiptC7)).qty ≠ "0" := by
  refine ⟨rfl, rfl, by decide⟩

/-- The spec's partial-extraction example: a response carrying only a
ticker. -/
def msftReceipt : ParsedReceipt := { ticker := some "MSFT" }

/-- A response whose present fields are all falsy: empty ticker string,
zero price. -/
def falsyReceipt : ParsedReceipt := { ticker := some "", avgPrice := some 0 }

theorem c7_witness :
    (handleFileChange cexFormC7 true (ReceiptOutcome.parsed msftReceipt)).ticker
      = "MSFT"
  ∧ (handleFileChange cexFormC7 true (ReceiptOutcome.parsed msftReceipt)).qty
      = "5"
  ∧ (handleFileChange cexFormC7 true (ReceiptOutcome.parsed msftReceipt)).price
      = "12"
  ∧ (handleFileChange cexFormC7 true
      (ReceiptOutcome.parsed falsyReceipt)).ticker = "NVDA"
  ∧ (handleFileChange cexFormC7 true
      (ReceiptOutcome.parsed falsyReceipt)).price = "12" := by
  have h := c7_amended cexFormC7 msftReceipt
  have hf := c7_amended cexFormC7 falsyReceipt
  exact ⟨h.2.2.2.1 "MSFT" rfl (by decide), h.2.1 rfl, h.2.2.1 rfl,
    hf.2.2.2.2.2.2.2.1 rfl, hf.2.2.2.2.2.2.2.2.2 rfl⟩

/-! ## Chat session (src/components/SidebarChat.tsx, lines 27-68) -/

/-- Message roles as used by SidebarChat ('user' / 'model'). -/
inductive Role
  | user
  | model
deriving DecidableEq

/-- One chat message; `isThinking` is the transient in-progress flag
(absent on ordinary messages, which renders as false). -/
structure ChatMessage where
  role : Role
  text : String
  isThinking : Bool := false
deriving DecidableEq

/-- The fixed localized error message of line 64. -/
def chatErrorText : String :=
  "申し訳ありません。リクエストの処理中にエラーが発生しました。"

/-- The greeting the message list is initialized with (line 13). -/
def chatGreeting : ChatMessage :=
  { role := Role.model,
    text := "こんにちは！Geminiポートフォリオアシスタントです。保有している米国株について質問するか、購入レシートをアップロードして資産を更新してください。" }

/-- A settled assistant message (isThinking cleared). -/
def settledMsg (t : String) : ChatMessage :=
  { role := Role.model, text := t, isThinking := false }

/-- The placeholder assistant message appended before streaming starts
(line 52): empty text, thinking indicator on. -/
def thinkingPlaceholder : ChatMessage :=
  { role := Role.model, text := "", isThinking := true }

/-- `newArr[newArr.length - 1] = m` on a copy of the list (lines 56-60);
only ever applied to a nonempty list (a placeholder was just pushed). -/
def setLast (ms : List ChatMessage) (m : ChatMessage) : List ChatMessage :=
  ms.dropLast ++ [m]

/-- The `for await (const chunk of stream)` loop (lines 54-61): each
fragment is appended to the accumulator and the last message is
overwritten with the accumulated text and `isThinking: false`. -/
def consumeStream : List ChatMessage → String → List String →
    List ChatMessage × String
  | ms, acc, [] => (ms, acc)
  | ms, acc, c :: cs =>
    consumeStream (setLast ms (settledMsg (acc ++ c))) (acc ++ c) cs

/-- `fullResponse` assembled from the fragments in arrival order. -/
def joinChunks (chunks : List String) : String :=
  chunks.foldl (fun a c => a ++ c) ""

/-- How a chat turn's stream resolves: the fragments delivered, and
whether the turn then ended normally or threw. -/
inductive StreamResult
  | success (chunks : List String)
  | failure (chunks : List String)

/-- The SidebarChat state touched by handleSend. -/
structure ChatState where
  messages : List ChatMessage
  input : String
  isLoading : Bool
deriving DecidableEq

/-- handleSend as a transition on the chat state.  Early return when the
trimmed input is empty or a turn is in flight; otherwise the user
message and a thinking placeholder are appended, the stream is consumed,
and on failure the catch block *appends* the fixed error message while
the finally block clears isLoading.  Any failure is raised while
iterating the stream, after the placeholder was appended (the async
generator body only runs on first iteration). -/
def handleSend (s : ChatState) (r : StreamResult) : ChatState :=
  if jsTrim s.input = "" ∨ s.isLoading then s
  else
    let userMsg : ChatMessage := { role := Role.user, text := s.input }
    let ms1 := s.messages ++ [userMsg]
    let ms2 := ms1 ++ [thinkingPlaceholder]
    match r with
    | StreamResult.success chunks =>
      { messages := (consumeStream ms2 "" chunks).1, input := "",
        isLoading := false }
    | StreamResult.failure chunks =>
      { messages := (consumeStream ms2 "" chunks).1 ++ [settledMsg chatErrorText],
        input := "", isLoading := false }

/-- The visible message list after the user message and placeholder were
appended and the first `k` fragments were consumed: the intermediate
render states of the streaming loop. -/
def messagesAfterFragments (s : ChatState) (chunks : List String) (k : ℕ) :
    List ChatMessage :=
  let userMsg : ChatMessage := { role := Role.user, text := s.input }
  (consumeStream (s.messages ++ [userMsg, thinkingPlaceholder]) "" (chunks.take k)).1

theorem consumeStream_fst (cs : List String) :
    ∀ (ms : List ChatMessage) (acc : String), ms ≠ [] →
      (consumeStream ms acc cs).1 =
        if cs = [] then ms
        else ms.dropLast ++ [settledMsg (cs.foldl (fun a c => a ++ c) acc)] := by
  induction cs with
  | nil => intro ms acc _; simp [consumeStream]
  | cons c cs ih =>
    intro ms acc hms
    rw [consumeStream, ih (setLast ms _) (acc ++ c) (by simp [setLast])]
    rcases cs with _ | ⟨d, ds⟩
    · simp [setLast, List.foldl]
    · simp [setLast, List.dropLast_concat]

theorem consumeStream_length (cs : List String) :
    ∀ (ms : List ChatMessage) (acc : String), ms ≠ [] →
      (consumeStream ms acc cs).1.length = ms.length := by
  intro ms acc hms
  rw [consumeStream_fst cs ms acc hms]
  split
  · rfl
  · have hpos : 0 < ms.length := List.length_pos.2 hms
    simp only [List.length_append, List.length_dropLast, List.length_cons,
      List.length_nil]
    omega

/-- The concrete chat state used by the C5/C6 counterexamples and
witnesses: the initial greeting, "hi" typed, no turn in flight. -/
def cexChatState : ChatState :=
  { messages := [chatGreeting], input := "hi", isLoading := false }

/-- C5 counterexample: a stream that fails before delivering any
fragment.  The claim predicts the placeholder is replaced by the error
message and that no thinking message remains; in fact the error message
is appended after the placeholder, which stays in the history in its
thinking state. -/
theorem c5_counterexample :
    ((handleSend cexChatState (StreamResult.failure [])).messages.any
      (fun m => m.isThinking)) = true
  ∧ (handleSend cexChatState (StreamResult.failure [])).messages =
      [chatGreeting, { role := Role.user, text := "hi" },
        thinkingPlaceholder, settledMsg chatErrorText] := by
  exact ⟨by decide, by decide⟩

/-- C5 (amended).  Chat stream failure recovery: on every failure during
a chat turn the fixed localized error message is appended as a new,
settled, final message and the session returns to idle (isLoading false,
input cleared, ready for the next send); the placeholder is not
replaced — it stays in the history with whatever text had streamed, so
when the failure precedes the first fragment a message in the thinking
state remains (see the counterexample). -/
theorem c5_amended (s : ChatState) (chunks : List String)
    (h1 : jsTrim s.input ≠ "") (h2 : s.isLoading = false) :
    (handleSend s (StreamResult.failure chunks)).isLoading = false
  ∧ (handleSend s (StreamResult.failure chunks)).input = ""
  ∧ (handleSend s (StreamResult.failure chunks)).messages.getLast? =
      some (settledMsg chatErrorText)
  ∧ (handleSend s (StreamResult.failure chunks)).messages.length =
      s.messages.length + 3 := by
  have hcond : ¬(jsTrim s.input = "" ∨ s.isLoading) := by
    rw [h2]; simp [h1]
  unfold handleSend
  rw [if_neg hcond]
  dsimp only
  refine ⟨rfl, rfl, ?_, ?_⟩
  · exact List.getLast?_concat _
  · rw [List.length_append,
      consumeStream_length _ _ _ (by simp)]
    simp only [List.length_append, List.length_cons, List.length_nil]

theorem c5_witness :
    (handleSend cexChatState (StreamResult.failure ["par"])).isLoading = false
  ∧ (handleSend cexChatState
      (StreamResult.failure ["par"])).messages.length = 4 := by
  have h := c5_amended cexChatState ["par"] (by decide) rfl
  exact ⟨h.1, by rw [h.2.2.2]; rfl⟩

/-- C6 counterexample: with fragments "Hel", "lo, ", "world", the claim
predicts the assistant message's thinking flag is true after the first
fragment is received; in fact the loop writes the message with
isThinking false already at the first fragment. -/
theorem c6_counterexample :
    ¬((messagesAfterFragments cexChatState ["Hel", "lo, ", "world"]
        1).getLast?.map ChatMessage.isThinking = some true)
  ∧ (messagesAfterFragments cexChatState ["Hel", "lo, ", "world"]
        1).getLast? = some (settledMsg "Hel") := by
  exact ⟨by decide, by decide⟩

/-- C6 (amended).  Chat streaming assembly: a successful turn appends
exactly one assistant message beyond the user message, and its final
text is the concatenation of the fragments in arrival order; the
thinking flag is true on the placeholder before any fragment arrives and
false from the first fragment onward — in particular it is false, not
true, right after the first fragment, and it is false after the stream
ends (for an empty stream the placeholder simply remains). -/
theorem c6_amended (s : ChatState) (chunks : List String)
    (h1 : jsTrim s.input ≠ "") (h2 : s.isLoading = false) :
    ((handleSend s (StreamResult.success chunks)).messages =
      s.messages ++ [{ role := Role.user, text := s.input }] ++
        [if chunks = [] then thinkingPlaceholder
         else settledMsg (joinChunks chunks)])
  ∧ (messagesAfterFragments s chunks 0).getLast? = some thinkingPlaceholder
  ∧ ∀ k, 1 ≤ k → k ≤ chunks.length →
      (messagesAfterFragments s chunks k).getLast? =
        some (settledMsg (joinChunks (chunks.take k))) := by
  have hcond : ¬(jsTrim s.input = "" ∨ s.isLoading) := by
    rw [h2]; simp [h1]
  refine ⟨?_, ?_, ?_⟩
  · unfold handleSend
    rw [if_neg hcond]
    dsimp only
    rw [consumeStream_fst chunks _ "" (by simp)]
    rcases chunks with _ | ⟨c, cs⟩
    · simp
    · simp [joinChunks, List.dropLast_concat]
  · unfold messagesAfterFragments
    simp [consumeStream]
  · intro k hk1 hk2
    unfold messagesAfterFragments
    dsimp only
    have htake : chunks.take k ≠ [] := by
      rw [Ne, List.take_eq_nil_iff]
      push_neg
      constructor
      · omega
      · rintro rfl
        simp at hk2
        omega
    rw [consumeStream_fst _ _ "" (by simp), if_neg htake,
      List.getLast?_concat]
    rfl

theorem c6_witness :
    (handleSend cexChatState
        (StreamResult.success ["Hel", "lo, ", "world"])).messages =
      [chatGreeting, { role := Role.user, text := "hi" },
        settledMsg "Hello, world"]
  ∧ (messagesAfterFragments cexChatState ["Hel", "lo, ", "world"]
        3).getLast? = some (settledMsg "Hello, world") := by
  have h := c6_amended cexChatState ["Hel", "lo, ", "world"] (by decide) rfl
  constructor
  · exact h.1.trans (by decide)
  · exact (h.2.2 3 (by norm_num) (by norm_num)).trans (by decide)

/-! ## News parsing (src/components/SidebarChat.tsx, lines 217-275,
`fetchStockNews` in the gateway half of the file) -/

/-- One grounding chunk's optional web metadata. -/
structure Web where
  uri : Option String := none
  title : Option String := none
deriving DecidableEq

/-- A grounding chunk from the search tool. -/
structure GroundingChunk where
  web : Option Web := none
deriving DecidableEq

/-- A parsed news story. -/
structure NewsItem where
  headline : String
  summary : String
  url : Option String := none
  source : String
deriving DecidableEq

/-- JS `x || d` on an optional string: an absent or empty string falls
back to the default. -/
def jsOrS (o : Option String) (d : String) : String :=
  match o with
  | some v => if v ≠ "" then v else d
  | none => d

/-- `text.split('|||').map(s => s.trim()).filter(s => s.length > 0)`. -/
def rawStories (text : String) : List String :=
  ((jsSplit text "|||").map jsTrim).filter (fun s => s.length > 0)

/-- The per-story callback of the `rawItems.map` (lines 241-258): split
on "::", fall back per part, and associate a grounding chunk by index
modulo the chunk count (undefined when there are no chunks, as in JS
where the NaN index misses). -/
def newsItemOf (gchunks : List GroundingChunk) (p : ℕ × String) : NewsItem :=
  let parts := jsSplit p.2 "::"
  let chunk := if gchunks.length = 0 then none
    else gchunks.get? (p.1 % gchunks.length)
  let web := chunk.bind GroundingChunk.web
  { headline := jsOrS ((parts.get? 0).map jsTrim) "関連ニュース",
    summary := jsOrS ((parts.get? 1).map jsTrim) p.2,
    url := web.bind Web.uri,
    source := jsOrS (web.bind Web.title) "Google Search" }

/-- fetchStockNews on the non-throwing path, as a function of the
tickers, the raw response text and the grounding chunks.  Empty tickers
short-circuit to [].  If nothing parsed while text was returned, a
single fallback item carries the full raw text. -/
def fetchStockNews (tickers : List String) (text : String)
    (gchunks : List GroundingChunk) : List NewsItem :=
  if tickers.length = 0 then []
  else
    let newsItems := (rawStories text).enum.map (newsItemOf gchunks)
    if newsItems.length = 0 ∧ text.length > 0 then
      [{ headline := "市場ニュース", summary := text,
         url := (((gchunks.get? 0).bind GroundingChunk.web).bind Web.uri),
         source := "Google Search" }]
    else newsItems

theorem string_ne_empty_length_pos (s : String) (h : s ≠ "") :
    0 < s.length := by
  rcases s with ⟨l⟩
  rcases l with _ | ⟨c, cs⟩
  · exact absurd rfl h
  · simp [String.length]

/-- C8 (amended).  News parsing never silently discards a non-empty
response (for a call that actually reached the gateway, i.e. a nonempty
ticker list): (1) a non-empty raw text yields a non-empty list; (2) a
text containing no "|||" and no "::" delimiters yields exactly one
NewsItem whose summary equals the *trimmed* raw text — equal to the full
raw text whenever it carries no surrounding whitespace, but not in
general (see the counterexample, which refutes the claim as stated);
(3) whenever zero entries parse while the raw text is non-empty, exactly
one fallback item carrying the full raw text is synthesized. -/
theorem c8_amended (tickers : List String) (text : String)
    (gchunks : List GroundingChunk) (hT : tickers ≠ []) :
    (text ≠ "" → fetchStockNews tickers text gchunks ≠ [])
  ∧ (jsSplit text "|||" = [text] →
      jsSplit (jsTrim text) "::" = [jsTrim text] → jsTrim text ≠ "" →
      (fetchStockNews tickers text gchunks).map (fun n => n.summary) =
        [jsTrim text])
  ∧ (rawStories text = [] → text ≠ "" →
      (fetchStockNews tickers text gchunks).map (fun n => n.summary) =
        [text]) := by
  have hT0 : ¬tickers.length = 0 := by
    rw [List.length_eq_zero]
    exact hT
  refine ⟨?_, ?_, ?_⟩
  · intro htext
    have hlen := string_ne_empty_length_pos text htext
    unfold fetchStockNews
    rw [if_neg hT0]
    dsimp only
    rcases hraw : rawStories text with _ | ⟨r, rs⟩
    · simp [hlen]
    · simp
  · intro hsplit htrimsplit htrim
    have hlen : 0 < (jsTrim text).length :=
      string_ne_empty_length_pos _ htrim
    have hraw : rawStories text = [jsTrim text] := by
      unfold rawStories
      rw [hsplit]
      simp [hlen]
    unfold fetchStockNews
    rw [if_neg hT0]
    dsimp only
    rw [hraw]
    simp only [List.enum_cons, List.enum_nil, List.map_cons, List.map_nil,
      List.length_cons, List.length_nil]
    rw [if_neg (by simp)]
    simp only [List.map_cons, List.map_nil, newsItemOf]
    rw [htrimsplit]
    simp [jsOrS]
  · intro hraw htext
    have hlen := string_ne_empty_length_pos text htext
    unfold fetchStockNews
    rw [if_neg hT0]
    dsimp only
    rw [hraw]
    simp [hlen]

/-- C8 counterexample: the raw text " a " (surrounding whitespace, no
delimiters) yields one item whose summary is the trimmed text "a", not
the full raw text, refuting the claim as stated. -/
theorem c8_counterexample :
    jsSplit " a " "|||" = [" a "]
  ∧ jsSplit " a " "::" = [" a "]
  ∧ " a " ≠ ""
  ∧ (fetchStockNews ["AAPL"] " a " []).map (fun n => n.summary) ≠ [" a "]
  ∧ (fetchStockNews ["AAPL"] " a " []).map (fun n => n.summary) = ["a"] := by
  refine ⟨by decide, by decide, by decide, by decide, by decide⟩

theorem c8_witness :
    (fetchStockNews ["AAPL"] "Market steady today" []).map
        (fun n => n.summary) = ["Market steady today"] := by
  have h := (c8_amended ["AAPL"] "Market steady today" [] (by decide)).2.1
    (by decide) (by decide) (by decide)
  exact h.trans (by decide)

/-- C9 counterexample: a raw response with eleven "|||"-separated
stories yields eleven NewsItems — the parser never truncates to 10 (the
cap is only requested of the model in the prompt), refuting the bound
for arbitrary gateway responses. -/
theorem c9_counterexample :
    (fetchStockNews ["AAPL"] "a|||b|||c|||d|||e|||f|||g|||h|||i|||j|||k"
      []).length = 11 := by
  decide

/-- C9 (amended).  News result bound: fetchStockNews always returns a
finite ordered list, with exactly one item per parsed story (or a single
fallback item); its length is at most 10 whenever the raw response text
splits into at most 10 non-empty trimmed stories — which is what the
prompt requests of the model — but the parser itself enforces no cap, so
the bound fails for responses with more stories (see the
counterexample). -/
theorem c9_amended (tickers : List String) (text : String)
    (gchunks : List GroundingChunk)
    (h : (rawStories text).length ≤ 10) :
    (fetchStockNews tickers text gchunks).length ≤ 10 := by
  unfold fetchStockNews
  split
  · simp
  · dsimp only
    split
    · simp
    · rw [List.length_map, List.enum_length]
      exact h


theorem c9_witness :
    (fetchStockNews ["AAPL"] "Fed holds :: rates steady|||Chips rally"
      []).length ≤ 10 := by
  exact c9_amended ["AAPL"] "Fed holds :: rates steady|||Chips rally" []
    (by decide)
